import Mathlib

/-!
Verification development for the `nv` crate: a Rust binding of a
name/value-pair container (`nvlist`).  The Rust sources (`nvlist.rs`,
`nvops.rs`, `common.rs`) wrap an external C container library through a raw
pointer held in `NvList { list: Option<*mut nvlist> }`; the `None` case is the
"default/invalid" sentinel.  This file gives a shallow embedding:

* the C-side container state is the pure value `CNvList` (flags, sticky error
  code, ordered entry list); the C-side operations (`c_add`, `c_exists`, ...)
  are modelled from the specification, since the C library's implementation is
  not part of the crate's sources;
* the Rust wrapper methods are translated line-by-line from `nvlist.rs`.
  `CString::new(..).expect(..)` panics on a byte string containing an interior
  NUL, so every wrapper that performs that conversion is embedded as an
  `Option`-returning function where `none` models the panic, and the order of
  the conversion relative to the `match self.list` is preserved exactly;
* the wire codec (`c_dump` / `c_parse`) is modelled from the specification
  (record = type tag, length-prefixed name, payload; arrays carry an element
  count; nested containers recurse and are terminated by an end marker; the
  sticky error is not part of the wire form).
-/

/-- Enumeration of options available at creation of an `nvlist`
(`NvFlag` in `nvlist.rs`): `None = 0`, `IgnoreCase = 1`, `NoUnique = 2`,
`All = 3`. -/
inductive NvFlag : Type where
  | None : NvFlag
  | IgnoreCase : NvFlag
  | NoUnique : NvFlag
  | All : NvFlag
deriving DecidableEq, Repr

/-- Error type of the crate (`NvErr` in `common.rs`). -/
inductive NvErr : Type where
  | ConstructionErr : NvErr
  | ErrorNotSet : Int → NvErr
deriving DecidableEq, Repr

/-- Result type of the crate (`NvResult<T>` in `common.rs`). -/
abbrev NvResult (α : Type) := Except NvErr α

/-- Numeric value of an `NvFlag` (the `flags as i32` casts in `nvlist.rs`). -/
def NvFlag.toNat : NvFlag → Nat
  | .None => 0
  | .IgnoreCase => 1
  | .NoUnique => 2
  | .All => 3

/-- Conversion of an `i32` into an `NvFlag` (`NvFlag::from_i32`). -/
def NvFlag.from_i32 (flags : Int) : NvResult NvFlag :=
  match flags with
  | 0 => .ok .None
  | 1 => .ok .IgnoreCase
  | 2 => .ok .NoUnique
  | 3 => .ok .All
  | _ => .error .ConstructionErr

/-- Inverse of `NvFlag.toNat` on valid tokens, used by the wire decoder to read back
the flags token. -/
def NvFlag.fromWire : Nat → Option NvFlag
  | 0 => some .None
  | 1 => some .IgnoreCase
  | 2 => some .NoUnique
  | 3 => some .All
  | _ => none

/-- Whether the flag value requests case-insensitive name lookups. -/
def NvFlag.ignoreCase : NvFlag → Bool
  | .IgnoreCase => true
  | .All => true
  | _ => false

/-- Whether the flag value allows duplicate names in the list. -/
def NvFlag.noUnique : NvFlag → Bool
  | .NoUnique => true
  | .All => true
  | _ => false

/-- Enumeration of the data types supported by the `nvlist` API
(`NvType` in `common.rs`). -/
inductive NvType : Type where
  | None | Null | Bool | Number | String | NvList | Descriptor | Binary
  | BoolArray | NumberArray | StringArray | NvListArray | DescriptorArray
deriving DecidableEq, Repr

/-- Numeric code of an `NvType` (the `#[repr(i32)]` values in `common.rs`). -/
def NvType.toNat : NvType → Nat
  | .None => 0
  | .Null => 1
  | .Bool => 2
  | .Number => 3
  | .String => 4
  | .NvList => 5
  | .Descriptor => 6
  | .Binary => 7
  | .BoolArray => 8
  | .NumberArray => 9
  | .StringArray => 10
  | .NvListArray => 11
  | .DescriptorArray => 12

/-- Byte strings: names and C-string values are sequences of bytes.  Rust's
`CString::new` fails (and the crate's `.expect` panics) exactly when such a
sequence contains a NUL byte. -/
abbrev NvName := List Nat

mutual
/-- A tagged value stored in a container, covering every kind the crate can
insert: null, bool, 64-bit number, C string, nested list, binary blob and the
four array kinds. -/
inductive NvValue : Type where
  | vnull : NvValue
  | vbool (b : Bool) : NvValue
  | vnum (n : Nat) : NvValue
  | vstr (s : NvName) : NvValue
  | vlist (l : CNvList) : NvValue
  | vbin (s : NvName) : NvValue
  | vboolArr (a : List Bool) : NvValue
  | vnumArr (a : List Nat) : NvValue
  | vstrArr (a : List NvName) : NvValue
  | vlistArr (a : List CNvList) : NvValue
/-- A single name/value entry of a container. -/
inductive NvEntry : Type where
  | mk (name : NvName) (val : NvValue) : NvEntry
/-- The C-side container state: creation flags, the sticky error code
(`0` meaning no error) and the ordered entry sequence. -/
inductive CNvList : Type where
  | mk (flags : NvFlag) (err : Int) (entries : List NvEntry) : CNvList
end

/-- Name of an entry. -/
def NvEntry.name : NvEntry → NvName
  | .mk n _ => n

/-- Value of an entry. -/
def NvEntry.val : NvEntry → NvValue
  | .mk _ v => v

/-- Flags of a C-side container. -/
def CNvList.flags : CNvList → NvFlag
  | .mk f _ _ => f

/-- Sticky error code of a C-side container. -/
def CNvList.err : CNvList → Int
  | .mk _ e _ => e

/-- Entry sequence of a C-side container. -/
def CNvList.entries : CNvList → List NvEntry
  | .mk _ _ es => es

/-- Type tag of a stored value, as an `NvType`. -/
def NvValue.typeOf : NvValue → NvType
  | .vnull => .Null
  | .vbool _ => .Bool
  | .vnum _ => .Number
  | .vstr _ => .String
  | .vlist _ => .NvList
  | .vbin _ => .Binary
  | .vboolArr _ => .BoolArray
  | .vnumArr _ => .NumberArray
  | .vstrArr _ => .StringArray
  | .vlistArr _ => .NvListArray

/-- ASCII lower-casing of one byte, used for case-insensitive name
comparison. -/
def lowerByte (c : Nat) : Nat :=
  if 65 ≤ c ∧ c ≤ 90 then c + 32 else c

/-- Name comparison under the container's flags: byte equality, folding ASCII
case when `IgnoreCase` is set.  Modelled from the spec: `CaseInsensitiveNames`
determines whether name comparisons for lookup/existence/removal fold case. -/
def nameEq (flags : NvFlag) (a b : NvName) : Bool :=
  if flags.ignoreCase then a.map lowerByte == b.map lowerByte else a == b

/-- Whether a byte string contains a NUL byte; `CString::new` on such a string
fails and the crate's `.expect("Could not decode string")` panics. -/
def hasNul (s : NvName) : Bool := s.contains 0

/-- Fixed error code read from the invalid sentinel: `ENOMEM` (`0xc`), as in
the `None` arm of `NvList::error`. -/
def ENOMEM : Int := 0xc

/-- Modelled from the spec: the error code recorded when a name exceeds the
2048-byte bound (`NameTooLong`); the concrete value is the platform's
`ENAMETOOLONG`. -/
def ENAMETOOLONG : Int := 63

/-- Modelled from the spec: the error code recorded on a name collision when
duplicates are disallowed (`DuplicateName`); the concrete value is the
platform's `EEXIST`. -/
def EEXIST : Int := 17

/-- Max size the name of a name/value pair may take on
(`NV_NAME_MAX` in `common.rs`). -/
def NV_NAME_MAX : Nat := 2048

/-- Modelled from the spec: `nvlist_create` yields an empty container with the
given flags and no error. -/
def c_create (flags : NvFlag) : CNvList := .mk flags 0 []

/-- Modelled from the spec: `nvlist_empty` holds when the container has no
entries. -/
def c_empty (l : CNvList) : Bool := l.entries.isEmpty

/-- Modelled from the spec: whether some entry matches the name under the
container's case-folding policy (`nvlist_exists`). -/
def c_exists (l : CNvList) (name : NvName) : Bool :=
  l.entries.any (fun e => nameEq l.flags e.name name)

/-- Modelled from the spec: whether some entry matches the name and has the
given type (`nvlist_exists_type` and the per-type `nvlist_exists_*`). -/
def c_exists_type (l : CNvList) (name : NvName) (ty : NvType) : Bool :=
  l.entries.any (fun e => nameEq l.flags e.name name && (e.val.typeOf == ty))

/-- Modelled from the spec: the shared insertion path of every
`nvlist_add_*`.  An errored container ignores further mutation (sticky error);
a name longer than 2048 bytes records `NameTooLong` and inserts nothing; a
name collision with duplicates disallowed records `DuplicateName` and inserts
nothing; otherwise the new entry is appended, preserving insertion order. -/
def c_add (l : CNvList) (name : NvName) (v : NvValue) : CNvList :=
  if l.err ≠ 0 then l
  else if name.length > NV_NAME_MAX then .mk l.flags ENAMETOOLONG l.entries
  else if !l.flags.noUnique && c_exists l name then .mk l.flags EEXIST l.entries
  else .mk l.flags 0 (l.entries ++ [.mk name v])

/-- Modelled from the spec: `nvlist_add_null`. -/
def c_add_null (l : CNvList) (name : NvName) : CNvList := c_add l name .vnull

/-- Modelled from the spec: `nvlist_add_bool`. -/
def c_add_bool (l : CNvList) (name : NvName) (v : Bool) : CNvList :=
  c_add l name (.vbool v)

/-- Modelled from the spec: `nvlist_add_number`. -/
def c_add_number (l : CNvList) (name : NvName) (v : Nat) : CNvList :=
  c_add l name (.vnum v)

/-- Modelled from the spec: `nvlist_add_string`; the C side stores its own
copy of the passed C string. -/
def c_add_string (l : CNvList) (name : NvName) (v : NvName) : CNvList :=
  c_add l name (.vstr v)

/-- Modelled from the spec: `nvlist_add_nvlist`; the nested container is
deep-cloned at insertion time, which on pure values is the value itself. -/
def c_add_nvlist (l : CNvList) (name : NvName) (v : CNvList) : CNvList :=
  c_add l name (.vlist v)

/-- Modelled from the spec: `nvlist_add_binary`; the payload bytes are
copied. -/
def c_add_binary (l : CNvList) (name : NvName) (v : NvName) : CNvList :=
  c_add l name (.vbin v)

/-- Modelled from the spec: `nvlist_add_bool_array`. -/
def c_add_bool_array (l : CNvList) (name : NvName) (v : List Bool) : CNvList :=
  c_add l name (.vboolArr v)

/-- Modelled from the spec: `nvlist_add_number_array`. -/
def c_add_number_array (l : CNvList) (name : NvName) (v : List Nat) : CNvList :=
  c_add l name (.vnumArr v)

/-- Modelled from the spec: `nvlist_add_string_array`. -/
def c_add_string_array (l : CNvList) (name : NvName) (v : List NvName) : CNvList :=
  c_add l name (.vstrArr v)

/-- Modelled from the spec: `nvlist_add_nvlist_array`; each element is
deep-cloned into the entry. -/
def c_add_nvlist_array (l : CNvList) (name : NvName) (v : List CNvList) : CNvList :=
  c_add l name (.vlistArr v)

/-- Modelled from the spec: first entry matching the name with the requested
tag, in insertion order (the per-type `nvlist_get_*` lookups skip entries of
other types, as the crate's own doc-test for `get_nvlist` shows). -/
def c_find (l : CNvList) (name : NvName) (ty : NvType) : Option NvValue :=
  (l.entries.find? (fun e => nameEq l.flags e.name name && (e.val.typeOf == ty))).map
    NvEntry.val

/-- Modelled from the spec: `nvlist_get_bool` on the first matching
bool-tagged entry. -/
def c_get_bool (l : CNvList) (name : NvName) : Option Bool :=
  match c_find l name .Bool with
  | some (.vbool b) => some b
  | _ => none

/-- Modelled from the spec: `nvlist_get_number` on the first matching
number-tagged entry. -/
def c_get_number (l : CNvList) (name : NvName) : Option Nat :=
  match c_find l name .Number with
  | some (.vnum n) => some n
  | _ => none

/-- Modelled from the spec: `nvlist_get_string` on the first matching
string-tagged entry; the C side hands out a pointer to the stored bytes. -/
def c_get_string (l : CNvList) (name : NvName) : Option NvName :=
  match c_find l name .String with
  | some (.vstr s) => some s
  | _ => none

/-- Modelled from the spec: `nvlist_get_nvlist` on the first matching
nvlist-tagged entry; the C side hands out the stored child. -/
def c_get_nvlist (l : CNvList) (name : NvName) : Option CNvList :=
  match c_find l name .NvList with
  | some (.vlist c) => some c
  | _ => none

/-- Modelled from the spec: `nvlist_get_bool_array`. -/
def c_get_bool_array (l : CNvList) (name : NvName) : Option (List Bool) :=
  match c_find l name .BoolArray with
  | some (.vboolArr a) => some a
  | _ => none

/-- Modelled from the spec: `nvlist_get_number_array`. -/
def c_get_number_array (l : CNvList) (name : NvName) : Option (List Nat) :=
  match c_find l name .NumberArray with
  | some (.vnumArr a) => some a
  | _ => none

/-- Modelled from the spec: `nvlist_get_string_array`. -/
def c_get_string_array (l : CNvList) (name : NvName) : Option (List NvName) :=
  match c_find l name .StringArray with
  | some (.vstrArr a) => some a
  | _ => none

/-- Modelled from the spec: `nvlist_get_nvlist_array`. -/
def c_get_nvlist_array (l : CNvList) (name : NvName) : Option (List CNvList) :=
  match c_find l name .NvListArray with
  | some (.vlistArr a) => some a
  | _ => none

/-- Removal of the first entry satisfying a predicate; keeps the rest. -/
def removeFirst (p : NvEntry → Bool) : List NvEntry → List NvEntry
  | [] => []
  | e :: es => if p e then es else e :: removeFirst p es

/-- Modelled from the spec: `nvlist_free` removes the first match by name
(any type); removing a missing name is a no-op. -/
def c_free (l : CNvList) (name : NvName) : CNvList :=
  .mk l.flags l.err (removeFirst (fun e => nameEq l.flags e.name name) l.entries)

/-- Modelled from the spec: `nvlist_free_type` removes the first match by
name and type; removing a missing pair is a no-op. -/
def c_free_type (l : CNvList) (name : NvName) (ty : NvType) : CNvList :=
  .mk l.flags l.err
    (removeFirst (fun e => nameEq l.flags e.name name && (e.val.typeOf == ty)) l.entries)

/-- Modelled from the spec: `nvlist_set_error` forces the sticky code. -/
def c_set_error (l : CNvList) (error : Int) : CNvList :=
  .mk l.flags error l.entries

/-- Modelled from the spec: `nvlist_clone` is a full deep copy, which on pure
values is the value itself. -/
def c_clone (l : CNvList) : CNvList := l

/-- A list of name/value pairs (`NvList` in `nvlist.rs`): a possibly-absent
raw container.  `list = none` is the default/invalid sentinel produced by
`NvList::default()`. -/
structure NvList : Type where
  list : Option CNvList

/-- The default (invalid sentinel) `NvList`, `impl Default for NvList`. -/
def NvList.defaultNv : NvList := ⟨none⟩

/-- Create a new name/value pair list (`NvList::new`); in the model the
underlying allocation always succeeds. -/
def NvList.new (flags : NvFlag) : NvResult NvList :=
  .ok ⟨some (c_create flags)⟩

/-- Determines if the `nvlist` is empty (`NvList::is_empty`). -/
def NvList.is_empty (l : NvList) : Bool :=
  match l.list with
  | some list => c_empty list
  | none => true

/-- The flags the `nvlist` was created with (`NvList::flags`). -/
def NvList.flags (l : NvList) : NvFlag :=
  match l.list with
  | some list => list.flags
  | none => .None

/-- Gets the error value the list may have accumulated (`NvList::error`);
`ENOMEM` is returned when the inner list is absent. -/
def NvList.error (l : NvList) : Int :=
  match l.list with
  | some list => list.err
  | none => ENOMEM

/-- Sets the `NvList` to be in an error state (`NvList::set_error`); the
returned pair is (result, updated list). -/
def NvList.set_error (l : NvList) (error : Int) : NvResult Unit × NvList :=
  match l.list with
  | some list => (.ok (), ⟨some (c_set_error list error)⟩)
  | none => (.error (.ErrorNotSet error), l)

/-- Add a null value to the `NvList` (`NvList::add_null`).  The CString
conversion of `name` happens inside the `if let`, so the sentinel never
panics; `none` models the panic on an interior NUL. -/
def NvList.add_null (l : NvList) (name : NvName) : Option NvList :=
  match l.list with
  | some list =>
      if hasNul name then none else some ⟨some (c_add_null list name)⟩
  | none => some l

/-- Add a `bool` to the list (`NvList::add_bool`). -/
def NvList.add_bool (l : NvList) (name : NvName) (value : Bool) : Option NvList :=
  match l.list with
  | some list =>
      if hasNul name then none else some ⟨some (c_add_bool list name value)⟩
  | none => some l

/-- Add a `u64` to the `NvList` (`NvList::add_number`). -/
def NvList.add_number (l : NvList) (name : NvName) (value : Nat) : Option NvList :=
  match l.list with
  | some list =>
      if hasNul name then none else some ⟨some (c_add_number list name value)⟩
  | none => some l

/-- Add a string to the list (`NvList::add_string`); both the name and the
value go through a CString conversion inside the `if let`. -/
def NvList.add_string (l : NvList) (name value : NvName) : Option NvList :=
  match l.list with
  | some list =>
      if hasNul name then none
      else if hasNul value then none
      else some ⟨some (c_add_string list name value)⟩
  | none => some l

/-- Add an `NvList` to the list (`NvList::add_nvlist`).  The name conversion
happens before the match, so an interior-NUL name panics even on the
sentinel; an invalid (`None`) or null value is replaced by a freshly created
empty list carrying `self.flags()`. -/
def NvList.add_nvlist (l : NvList) (name : NvName) (value : NvList) : Option NvList :=
  if hasNul name then none
  else
    match l.list, value.list with
    | some this, some other => some ⟨some (c_add_nvlist this name other)⟩
    | some this, Option.none => some ⟨some (c_add_nvlist this name (c_create (NvList.flags l)))⟩
    | none, _ => some l

/-- Add binary data to the list (`NvList::add_binary`); the name conversion
happens before the `if let`. -/
def NvList.add_binary (l : NvList) (name : NvName) (value : NvName) : Option NvList :=
  if hasNul name then none
  else
    match l.list with
    | some list => some ⟨some (c_add_binary list name value)⟩
    | none => some l

/-- Add a slice of `bool` values (`NvList::add_bool_slice`). -/
def NvList.add_bool_slice (l : NvList) (name : NvName) (value : List Bool) :
    Option NvList :=
  match l.list with
  | some list =>
      if hasNul name then none else some ⟨some (c_add_bool_array list name value)⟩
  | none => some l

/-- Add a slice of `u64`s (`NvList::add_number_slice`). -/
def NvList.add_number_slice (l : NvList) (name : NvName) (value : List Nat) :
    Option NvList :=
  match l.list with
  | some list =>
      if hasNul name then none else some ⟨some (c_add_number_array list name value)⟩
  | none => some l

/-- Add a slice of strings (`NvList::add_string_slice`).  On a valid
container this operation has no defined result: the name or any element
containing an interior NUL panics in a CString conversion, and otherwise the
source collects `.as_ptr()` of `CString` temporaries that are dropped inside
the map closure, so the pointer array handed to `nvlist_add_string_array` is
dangling at the call — the crate itself documents the operation as
"currently broken" with a `should_panic` doc-test.  Every valid-container
path is therefore modelled as the abnormal outcome `none`; the sentinel path
never reaches the conversions and is a no-op. -/
def NvList.add_string_slice (l : NvList) (name : NvName) (value : List NvName) :
    Option NvList :=
  match l.list with
  | some _ =>
      if hasNul name then none
      else if value.any hasNul then none
      else none
  | none => some l

/-- Add a slice of `NvList`s (`NvList::add_nvlist_slice`); elements whose
inner list is absent are filtered out before the insertion. -/
def NvList.add_nvlist_slice (l : NvList) (name : NvName) (value : List NvList) :
    Option NvList :=
  match l.list with
  | some list =>
      if hasNul name then none
      else some ⟨some (c_add_nvlist_array list name (value.filterMap NvList.list))⟩
  | none => some l

/-- Returns `true` if a name/value pair exists in the `NvList`
(`NvList::exists`); the name conversion happens before the match. -/
def NvList.exists (l : NvList) (name : NvName) : Option Bool :=
  if hasNul name then none
  else
    match l.list with
    | some list => some (c_exists list name)
    | none => some false

/-- Returns `true` if a name/value pair of the specified type exists in the
`NvList` (`NvList::exists_type`). -/
def NvList.exists_type (l : NvList) (name : NvName) (ty : NvType) : Option Bool :=
  if hasNul name then none
  else
    match l.list with
    | some list => some (c_exists_type list name ty)
    | none => some false

/-- Get the first matching `bool` value paired with the given name
(`NvList::get_bool`): an existence check of the bool-typed pair guards the
raw read. -/
def NvList.get_bool (l : NvList) (name : NvName) : Option (Option Bool) :=
  if hasNul name then none
  else
    match l.list with
    | some list =>
        if c_exists_type list name .Bool then some (c_get_bool list name) else some none
    | none => some none

/-- Get the first matching `u64` value paired with the given name
(`NvList::get_number`). -/
def NvList.get_number (l : NvList) (name : NvName) : Option (Option Nat) :=
  if hasNul name then none
  else
    match l.list with
    | some list =>
        if c_exists_type list name .Number then some (c_get_number list name) else some none
    | none => some none

/-- Get the first matching string value paired with the given name
(`NvList::get_string`).  The value handed back is built by
`String::from_raw_parts` directly over the container's stored buffer. -/
def NvList.get_string (l : NvList) (name : NvName) : Option (Option NvName) :=
  if hasNul name then none
  else
    match l.list with
    | some list =>
        if c_exists_type list name .String then some (c_get_string list name) else some none
    | none => some none

/-- Get the first matching `NvList` value paired with the given name and
clone it (`NvList::get_nvlist`). -/
def NvList.get_nvlist (l : NvList) (name : NvName) : Option (Option NvList) :=
  if hasNul name then none
  else
    match l.list with
    | some list =>
        if c_exists_type list name .NvList then
          some ((c_get_nvlist list name).map (fun res => ⟨some (c_clone res)⟩))
        else some none
    | none => some none

/-- Get a `&[bool]` from the `NvList` (`NvList::get_bool_slice`). -/
def NvList.get_bool_slice (l : NvList) (name : NvName) : Option (Option (List Bool)) :=
  if hasNul name then none
  else
    match l.list with
    | some list =>
        if c_exists_type list name .BoolArray then some (c_get_bool_array list name)
        else some none
    | none => some none

/-- Get a `&[u64]` slice from the `NvList` (`NvList::get_number_slice`). -/
def NvList.get_number_slice (l : NvList) (name : NvName) : Option (Option (List Nat)) :=
  if hasNul name then none
  else
    match l.list with
    | some list =>
        if c_exists_type list name .NumberArray then some (c_get_number_array list name)
        else some none
    | none => some none

/-- Get a `Vec<String>` of the first string slice added to the `NvList`
(`NvList::get_string_vec`); each element is copied out of the container. -/
def NvList.get_string_vec (l : NvList) (name : NvName) : Option (Option (List NvName)) :=
  if hasNul name then none
  else
    match l.list with
    | some list =>
        if c_exists_type list name .StringArray then some (c_get_string_array list name)
        else some none
    | none => some none

/-- Get a `Vec<NvList>` for the given name (`NvList::get_nvlist_vec`); each
element is cloned into a fresh `NvList`. -/
def NvList.get_nvlist_vec (l : NvList) (name : NvName) : Option (Option (List NvList)) :=
  if hasNul name then none
  else
    match l.list with
    | some list =>
        if c_exists_type list name .NvListArray then
          some ((c_get_nvlist_array list name).map
            (fun a => a.map (fun item => (⟨some (c_clone item)⟩ : NvList))))
        else some none
    | none => some none

/-- Remove the element of the given name from the `NvList` (`NvList::free`);
the name conversion happens before the `if let`. -/
def NvList.free (l : NvList) (name : NvName) : Option NvList :=
  if hasNul name then none
  else
    match l.list with
    | some list => some ⟨some (c_free list name)⟩
    | none => some l

/-- Remove the element of the given name and type from the `NvList`
(`NvList::free_type`). -/
def NvList.free_type (l : NvList) (name : NvName) (ty : NvType) : Option NvList :=
  if hasNul name then none
  else
    match l.list with
    | some list => some ⟨some (c_free_type list name ty)⟩
    | none => some l

/-- `impl Clone for NvList`: cloning maps `nvlist_clone` over the inner
list. -/
def NvList.clone (l : NvList) : NvList :=
  ⟨l.list.map c_clone⟩

/-- The closed family of types implementing the `NvListOps` trait in
`nvops.rs`: `bool`, `u64`, `str`, `NvList`, and `Option<T>` for any
implementing `T` (so options nest). -/
inductive NvAddable : Type where
  | ab (b : Bool) : NvAddable
  | an (n : Nat) : NvAddable
  | astr (s : NvName) : NvAddable
  | alist (l : NvList) : NvAddable
  | aopt (o : Option NvAddable) : NvAddable

/-- The `nv_add` dispatch of the `NvListOps` impls in `nvops.rs`: each
concrete type forwards to its typed insertion, and `Option<T>` inserts a
`Null` entry when empty and dispatches on the wrapped value otherwise. -/
def NvAddable.nv_add : NvAddable → NvList → NvName → Option NvList
  | .ab b, list, name => NvList.add_bool list name b
  | .an n, list, name => NvList.add_number list name n
  | .astr s, list, name => NvList.add_string list name s
  | .alist l, list, name => NvList.add_nvlist list name l
  | .aopt (some val), list, name => val.nv_add list name
  | .aopt none, list, name => NvList.add_null list name

/-- Generically add a single value to the `NvList` (`NvList::add`), which
just invokes `value.nv_add(self, name)`. -/
def NvList.add (l : NvList) (name : NvName) (value : NvAddable) : Option NvList :=
  value.nv_add l name

mutual
/-- Modelled from the spec: payload bytes of one tagged value.  Strings,
blobs and arrays are length-prefixed; a nested container carries its flags
token and its entry records terminated by the end marker `0`; the sticky
error is not part of the wire form. -/
def dumpPayload : NvValue → List Nat
  | .vnull => []
  | .vbool b => [if b then 1 else 0]
  | .vnum n => [n]
  | .vstr s => s.length :: s
  | .vlist (.mk f _ es) => f.toNat :: (dumpEntries es ++ [0])
  | .vbin s => s.length :: s
  | .vboolArr a => a.length :: a.map (fun b => if b then 1 else 0)
  | .vnumArr a => a.length :: a
  | .vstrArr a => a.length :: dumpStrs a
  | .vlistArr a => a.length :: dumpInners a
/-- Modelled from the spec: each entry record is the value's type tag, the
length-prefixed name, then the payload. -/
def dumpEntries : List NvEntry → List Nat
  | [] => []
  | .mk n v :: es => v.typeOf.toNat :: n.length :: (n ++ (dumpPayload v ++ dumpEntries es))
/-- Length-prefixed encoding of a string-array's elements. -/
def dumpStrs : List NvName → List Nat
  | [] => []
  | s :: ss => s.length :: (s ++ dumpStrs ss)
/-- Encoding of an nvlist-array's elements: each element carries its flags
token and its entries terminated by the end marker. -/
def dumpInners : List CNvList → List Nat
  | [] => []
  | .mk f _ es :: ls => f.toNat :: (dumpEntries es ++ (0 :: dumpInners ls))
end

/-- Modelled from the spec: `dump` serializes the container's entries in
insertion order behind a flags token, terminated by the end marker; the
sticky error is not encoded. -/
def c_dump (l : CNvList) : List Nat :=
  l.flags.toNat :: (dumpEntries l.entries ++ [0])

/-- Write the `NvList` to a byte sink (`NvList::dump`); the sentinel writes
nothing. -/
def NvList.dump (l : NvList) : List Nat :=
  match l.list with
  | some list => c_dump list
  | none => []

/-- The size of the current list (`NvList::len` over `nvlist_size`), modelled
from the spec as the byte size of the encoded form. -/
def NvList.len (l : NvList) : Int :=
  match l.list with
  | some list => ((c_dump list).length : Int)
  | none => 0

mutual
/-- Fuel lower bound sufficient for the decoder to traverse one value. -/
def weightV : NvValue → Nat
  | .vnull => 1
  | .vbool _ => 1
  | .vnum _ => 1
  | .vstr _ => 1
  | .vlist (.mk _ _ es) => 1 + weightEs es
  | .vbin _ => 1
  | .vboolArr _ => 1
  | .vnumArr _ => 1
  | .vstrArr _ => 1
  | .vlistArr a => 1 + weightIs a
/-- Fuel lower bound sufficient for the decoder to traverse an entry list. -/
def weightEs : List NvEntry → Nat
  | [] => 1
  | .mk _ v :: es => 1 + weightV v + weightEs es
/-- Fuel lower bound sufficient for the decoder to traverse an nvlist-array's
elements. -/
def weightIs : List CNvList → Nat
  | [] => 1
  | .mk _ _ es :: ls => 1 + weightEs es + weightIs ls
end

/-- Decoder of a bool-array's elements: a fixed count of `0`/`1` tokens. -/
def parseBools : Nat → List Nat → Option (List Bool × List Nat)
  | 0, input => some ([], input)
  | c + 1, input =>
      match input with
      | 0 :: rest =>
          match parseBools c rest with
          | some (bs, rest2) => some (false :: bs, rest2)
          | none => none
      | 1 :: rest =>
          match parseBools c rest with
          | some (bs, rest2) => some (true :: bs, rest2)
          | none => none
      | _ => none

/-- Decoder of a string-array's elements: a fixed count of length-prefixed
byte strings. -/
def parseStrs : Nat → List Nat → Option (List NvName × List Nat)
  | 0, input => some ([], input)
  | c + 1, input =>
      match input with
      | len :: rest =>
          if len ≤ rest.length then
            match parseStrs c (rest.drop len) with
            | some (ss, rest2) => some (rest.take len :: ss, rest2)
            | none => none
          else none
      | [] => none

mutual
/-- Modelled from the spec: decoder of one value payload given its type tag.
Every length or count field is checked against the remaining input, an
unrecognized tag is a decode error, and a decoded nested container starts
with no sticky error.  The fuel argument strictly decreases on every
recursive call and only bounds the recursion depth. -/
def parsePayload : Nat → Nat → List Nat → Option (NvValue × List Nat)
  | 0, _, _ => none
  | _ + 1, 1, input => some (.vnull, input)
  | _ + 1, 2, input =>
      match input with
      | 0 :: rest => some (.vbool false, rest)
      | 1 :: rest => some (.vbool true, rest)
      | _ => none
  | _ + 1, 3, input =>
      match input with
      | n :: rest => some (.vnum n, rest)
      | [] => none
  | _ + 1, 4, input =>
      match input with
      | len :: rest =>
          if len ≤ rest.length then some (.vstr (rest.take len), rest.drop len) else none
      | [] => none
  | fuel + 1, 5, input =>
      match input with
      | ftok :: rest =>
          match NvFlag.fromWire ftok with
          | some f =>
              match parseEntries fuel rest with
              | some (es, rest2) => some (.vlist (.mk f 0 es), rest2)
              | none => none
          | none => none
      | [] => none
  | _ + 1, 7, input =>
      match input with
      | len :: rest =>
          if len ≤ rest.length then some (.vbin (rest.take len), rest.drop len) else none
      | [] => none
  | _ + 1, 8, input =>
      match input with
      | count :: rest =>
          match parseBools count rest with
          | some (bs, rest2) => some (.vboolArr bs, rest2)
          | none => none
      | [] => none
  | _ + 1, 9, input =>
      match input with
      | count :: rest =>
          if count ≤ rest.length then
            some (.vnumArr (rest.take count), rest.drop count)
          else none
      | [] => none
  | _ + 1, 10, input =>
      match input with
      | count :: rest =>
          match parseStrs count rest with
          | some (ss, rest2) => some (.vstrArr ss, rest2)
          | none => none
      | [] => none
  | fuel + 1, 11, input =>
      match input with
      | count :: rest =>
          match parseInners fuel count rest with
          | some (ls, rest2) => some (.vlistArr ls, rest2)
          | none => none
      | [] => none
  | _ + 1, _, _ => none
/-- Modelled from the spec: decoder of entry records up to the end marker.
Each record carries the type tag, a length-prefixed name bounded by
`NV_NAME_MAX`, and the payload. -/
def parseEntries : Nat → List Nat → Option (List NvEntry × List Nat)
  | 0, _ => none
  | fuel + 1, input =>
      match input with
      | [] => none
      | tag :: after =>
          if tag = 0 then some ([], after)
          else
            match after with
            | [] => none
            | nlen :: rest =>
                if nlen ≤ rest.length ∧ nlen ≤ NV_NAME_MAX then
                  match parsePayload fuel tag (rest.drop nlen) with
                  | some (v, rest2) =>
                      match parseEntries fuel rest2 with
                      | some (es, rest3) => some (.mk (rest.take nlen) v :: es, rest3)
                      | none => none
                  | none => none
                else none
/-- Decoder of a fixed count of nvlist-array elements. -/
def parseInners : Nat → Nat → List Nat → Option (List CNvList × List Nat)
  | 0, _, _ => none
  | _ + 1, 0, input => some ([], input)
  | fuel + 1, c + 1, input =>
      match input with
      | ftok :: rest =>
          match NvFlag.fromWire ftok with
          | some f =>
              match parseEntries fuel rest with
              | some (es, rest2) =>
                  match parseInners fuel c rest2 with
                  | some (ls, rest3) => some (.mk f 0 es :: ls, rest3)
                  | none => none
              | none => none
          | none => none
      | [] => none
end

/-- Modelled from the spec: `parse` decodes a byte stream back into a
container — a flags token followed by entry records up to the end marker,
with no trailing bytes allowed; the decoded container starts with no sticky
error.  Decode failures are `none`. -/
def c_parse (input : List Nat) : Option CNvList :=
  match input with
  | ftok :: rest =>
      match NvFlag.fromWire ftok with
      | some f =>
          match parseEntries input.length rest with
          | some (es, []) => some (.mk f 0 es)
          | _ => none
      | none => none
  | [] => none

mutual
/-- Name-boundedness of a value: every name inside a nested container
respects `NV_NAME_MAX`.  This is the invariant every insertion operation
establishes (the shared `c_add` path rejects longer names), so it holds of
every container buildable from the supported operations. -/
def namesBV : NvValue → Bool
  | .vlist (.mk _ _ es) => namesBEs es
  | .vlistArr a => namesBIs a
  | _ => true
/-- Name-boundedness of an entry list: every name is at most `NV_NAME_MAX`
bytes, recursively. -/
def namesBEs : List NvEntry → Bool
  | [] => true
  | .mk n v :: es => decide (n.length ≤ NV_NAME_MAX) && namesBV v && namesBEs es
/-- Name-boundedness of an nvlist-array's elements. -/
def namesBIs : List CNvList → Bool
  | [] => true
  | .mk _ _ es :: ls => namesBEs es && namesBIs ls
end

/-- Name-boundedness of a container: every name in it, recursively, respects
`NV_NAME_MAX`. -/
def namesBoundedC (l : CNvList) : Bool := namesBEs l.entries

mutual
/-- Reset of the sticky error fields a decode cannot see: the wire form has
no error slot, so every nested container's error reads as no-error after a
round trip.  Everything else — names, order, tags, payloads — is kept. -/
def scrubV : NvValue → NvValue
  | .vlist (.mk f _ es) => .vlist (.mk f 0 (scrubEs es))
  | .vlistArr a => .vlistArr (scrubIs a)
  | v => v
/-- Error reset over an entry list, keeping names, order and values. -/
def scrubEs : List NvEntry → List NvEntry
  | [] => []
  | .mk n v :: es => .mk n (scrubV v) :: scrubEs es
/-- Error reset over an nvlist-array's elements. -/
def scrubIs : List CNvList → List CNvList
  | [] => []
  | .mk f _ es :: ls => .mk f 0 (scrubEs es) :: scrubIs ls
end

theorem weightV_pos : ∀ v : NvValue, 1 ≤ weightV v
  | .vnull => by simp only [weightV]; omega
  | .vbool _ => by simp only [weightV]; omega
  | .vnum _ => by simp only [weightV]; omega
  | .vstr _ => by simp only [weightV]; omega
  | .vlist (.mk _ _ es) => by simp only [weightV]; omega
  | .vbin _ => by simp only [weightV]; omega
  | .vboolArr _ => by simp only [weightV]; omega
  | .vnumArr _ => by simp only [weightV]; omega
  | .vstrArr _ => by simp only [weightV]; omega
  | .vlistArr _ => by simp only [weightV]; omega

theorem weightEs_pos : ∀ es : List NvEntry, 1 ≤ weightEs es
  | [] => by simp only [weightEs]; omega
  | .mk _ v :: es => by simp only [weightEs]; omega

theorem weightIs_pos : ∀ ls : List CNvList, 1 ≤ weightIs ls
  | [] => by simp only [weightIs]; omega
  | .mk _ _ es :: ls => by simp only [weightIs]; omega

theorem fromWire_toNat (f : NvFlag) : NvFlag.fromWire f.toNat = some f := by
  cases f <;> rfl

theorem tag_ne_zero (v : NvValue) : v.typeOf.toNat ≠ 0 := by
  cases v <;> simp [NvValue.typeOf, NvType.toNat]

mutual
theorem weightV_le : ∀ v : NvValue, weightV v ≤ (dumpPayload v).length + 1
  | .vnull => by simp [weightV, dumpPayload]
  | .vbool _ => by simp [weightV, dumpPayload]
  | .vnum _ => by simp [weightV, dumpPayload]
  | .vstr _ => by simp [weightV, dumpPayload]
  | .vlist (.mk _ _ es) => by
      have h := weightEs_le es
      simp [weightV, dumpPayload]; omega
  | .vbin _ => by simp [weightV, dumpPayload]
  | .vboolArr _ => by simp [weightV, dumpPayload]
  | .vnumArr _ => by simp [weightV, dumpPayload]
  | .vstrArr _ => by simp [weightV, dumpPayload]
  | .vlistArr a => by
      have h := weightIs_le a
      simp [weightV, dumpPayload]; omega
theorem weightEs_le : ∀ es : List NvEntry, weightEs es ≤ (dumpEntries es).length + 1
  | [] => by simp [weightEs, dumpEntries]
  | .mk n v :: es => by
      have h1 := weightV_le v
      have h2 := weightEs_le es
      simp [weightEs, dumpEntries]; omega
theorem weightIs_le : ∀ ls : List CNvList, weightIs ls ≤ (dumpInners ls).length + 1
  | [] => by simp [weightIs, dumpInners]
  | .mk _ _ es :: ls => by
      have h1 := weightEs_le es
      have h2 := weightIs_le ls
      simp [weightIs, dumpInners]; omega
end

theorem parseBools_dump : ∀ (a : List Bool) (rest : List Nat),
    parseBools a.length (a.map (fun b => if b then 1 else 0) ++ rest) = some (a, rest)
  | [], rest => by simp [parseBools]
  | b :: bs, rest => by
      cases b <;> simp [parseBools, parseBools_dump bs rest]

theorem parseStrs_dump : ∀ (a : List NvName) (rest : List Nat),
    parseStrs a.length (dumpStrs a ++ rest) = some (a, rest)
  | [], rest => by simp [parseStrs, dumpStrs]
  | s :: ss, rest => by
      simp [parseStrs, dumpStrs, List.append_assoc, parseStrs_dump ss rest]

theorem parse_dump_all : ∀ F : Nat,
    (∀ (es : List NvEntry) (rest : List Nat), namesBEs es = true → weightEs es ≤ F →
      parseEntries F (dumpEntries es ++ 0 :: rest) = some (scrubEs es, rest))
  ∧ (∀ (v : NvValue) (rest : List Nat), namesBV v = true → weightV v ≤ F →
      parsePayload F v.typeOf.toNat (dumpPayload v ++ rest) = some (scrubV v, rest))
  ∧ (∀ (ls : List CNvList) (rest : List Nat), namesBIs ls = true → weightIs ls ≤ F →
      parseInners F ls.length (dumpInners ls ++ rest) = some (scrubIs ls, rest)) := by
  intro F
  induction F with
  | zero =>
      refine ⟨fun es rest hwf hw => ?_, fun v rest hwf hw => ?_, fun ls rest hwf hw => ?_⟩
      · exact absurd hw (by have := weightEs_pos es; omega)
      · exact absurd hw (by have := weightV_pos v; omega)
      · exact absurd hw (by have := weightIs_pos ls; omega)
  | succ f ih =>
      obtain ⟨ihE, ihP, ihI⟩ := ih
      refine ⟨fun es rest hwf hw => ?_, fun v rest hwf hw => ?_, fun ls rest hwf hw => ?_⟩
      · match es with
        | [] => simp [dumpEntries, parseEntries, scrubEs]
        | .mk n v :: es' =>
            simp only [namesBEs, Bool.and_eq_true, decide_eq_true_eq] at hwf
            obtain ⟨⟨hn, hv⟩, hes⟩ := hwf
            simp only [weightEs] at hw
            have hwv : weightV v ≤ f := by have := weightEs_pos es'; omega
            have hwes : weightEs es' ≤ f := by have := weightV_pos v; omega
            simp only [dumpEntries, scrubEs, List.cons_append, List.append_assoc]
            simp only [parseEntries, tag_ne_zero v, if_neg, ite_false]
            have hcond : List.length n ≤ (n ++ (dumpPayload v ++ (dumpEntries es' ++ 0 :: rest))).length ∧ List.length n ≤ NV_NAME_MAX := ⟨by simp, hn⟩
            rw [if_pos hcond, List.take_left, List.drop_left]
            rw [ihP v _ hv hwv]
            simp only [ihE es' rest hes hwes]
      · match v with
        | .vnull => simp [dumpPayload, parsePayload, scrubV, NvValue.typeOf, NvType.toNat]
        | .vbool b => cases b <;> simp [dumpPayload, parsePayload, scrubV, NvValue.typeOf, NvType.toNat]
        | .vnum n => simp [dumpPayload, parsePayload, scrubV, NvValue.typeOf, NvType.toNat]
        | .vstr s => simp [dumpPayload, parsePayload, scrubV, NvValue.typeOf, NvType.toNat, List.append_assoc]
        | .vbin s => simp [dumpPayload, parsePayload, scrubV, NvValue.typeOf, NvType.toNat, List.append_assoc]
        | .vboolArr a =>
            simp [dumpPayload, parsePayload, scrubV, NvValue.typeOf, NvType.toNat, List.append_assoc,
              parseBools_dump]
        | .vnumArr a => simp [dumpPayload, parsePayload, scrubV, NvValue.typeOf, NvType.toNat, List.append_assoc]
        | .vstrArr a =>
            simp [dumpPayload, parsePayload, scrubV, NvValue.typeOf, NvType.toNat, List.append_assoc,
              parseStrs_dump]
        | .vlist (.mk fl e es) =>
            simp only [namesBV] at hwf
            simp only [weightV] at hw
            simp only [dumpPayload, scrubV, NvValue.typeOf, NvType.toNat, List.cons_append,
              List.append_assoc, List.singleton_append]
            simp only [parsePayload, fromWire_toNat, List.nil_append]
            simp only [ihE es rest hwf (by omega)]
        | .vlistArr a =>
            simp only [namesBV] at hwf
            simp only [weightV] at hw
            simp only [dumpPayload, scrubV, NvValue.typeOf, NvType.toNat, List.cons_append,
              List.append_assoc]
            simp only [parsePayload]
            simp only [ihI a rest hwf (by omega)]
      · match ls with
        | [] => simp [dumpInners, parseInners, scrubIs]
        | .mk fl e es :: ls' =>
            simp only [namesBIs, Bool.and_eq_true] at hwf
            obtain ⟨hes, hls⟩ := hwf
            simp only [weightIs] at hw
            simp only [dumpInners, scrubIs, List.cons_append, List.append_assoc, List.length_cons]
            simp only [parseInners, fromWire_toNat]
            simp only [ihE es _ hes (by have := weightIs_pos ls'; omega)]
            simp only [ihI ls' rest hls (by have := weightEs_pos es; omega)]

/-- Round trip of the codec at the C level: parsing the dump of any
name-bounded container restores the flags and the entry sequence up to the
reset of the sticky error fields the wire form cannot carry. -/
theorem c_parse_c_dump (fl : NvFlag) (err : Int) (es : List NvEntry)
    (h : namesBEs es = true) :
    c_parse (c_dump (.mk fl err es)) = some (.mk fl 0 (scrubEs es)) := by
  have hlen : weightEs es ≤ (fl.toNat :: (dumpEntries es ++ [0])).length := by
    have := weightEs_le es
    simp [List.length_append]
    omega
  simp only [c_dump, CNvList.flags, CNvList.entries, c_parse, fromWire_toNat]
  rw [show dumpEntries es ++ [0] = dumpEntries es ++ 0 :: [] from rfl]
  rw [(parse_dump_all _).1 es [] h hlen]

/-- The type tag of a value survives the error reset. -/
theorem scrubV_typeOf : ∀ v : NvValue, (scrubV v).typeOf = v.typeOf
  | .vnull => rfl
  | .vbool _ => rfl
  | .vnum _ => rfl
  | .vstr _ => rfl
  | .vlist (.mk _ _ _) => rfl
  | .vbin _ => rfl
  | .vboolArr _ => rfl
  | .vnumArr _ => rfl
  | .vstrArr _ => rfl
  | .vlistArr _ => rfl

/-- The error reset keeps every entry name, in order. -/
theorem scrubEs_map_name : ∀ es : List NvEntry,
    (scrubEs es).map NvEntry.name = es.map NvEntry.name
  | [] => rfl
  | .mk n v :: es => by simp [scrubEs, NvEntry.name, scrubEs_map_name es]

/-- The error reset keeps every entry's type tag, in order. -/
theorem scrubEs_map_typeOf : ∀ es : List NvEntry,
    (scrubEs es).map (fun e => e.val.typeOf) = es.map (fun e => e.val.typeOf)
  | [] => rfl
  | .mk n v :: es => by
      simp only [scrubEs, List.map_cons]
      rw [scrubEs_map_typeOf es]
      simp [NvEntry.val, scrubV_typeOf]

/-- Name-boundedness splits over appending one entry. -/
theorem namesBEs_append : ∀ (es : List NvEntry) (e : NvEntry),
    namesBEs (es ++ [e]) = (namesBEs es && namesBEs [e])
  | [], e => by simp [namesBEs]
  | .mk n v :: es, e => by
      simp [namesBEs, namesBEs_append es e, Bool.and_assoc]

/-- A freshly created container is name-bounded. -/
theorem c_create_namesBounded (fl : NvFlag) :
    namesBoundedC (c_create fl) = true := rfl

/-- Every insertion preserves name-boundedness: the shared `c_add` path
rejects names beyond `NV_NAME_MAX`, so every container reachable from
`c_create` through the supported insertions satisfies `namesBoundedC`. -/
theorem c_add_namesBounded (l : CNvList) (name : NvName) (v : NvValue)
    (hl : namesBoundedC l = true) (hv : namesBV v = true) :
    namesBoundedC (c_add l name v) = true := by
  cases l with
  | mk fl err es =>
      simp only [namesBoundedC, CNvList.entries] at hl
      unfold c_add
      split
      · simpa [namesBoundedC, CNvList.entries] using hl
      split
      · simpa [namesBoundedC, CNvList.entries, CNvList.flags] using hl
      split
      · simpa [namesBoundedC, CNvList.entries, CNvList.flags] using hl
      · simp only [namesBoundedC, CNvList.entries, CNvList.flags]
        rw [namesBEs_append]
        have hle : List.length name ≤ NV_NAME_MAX := by omega
        simp [namesBEs, hl, hv, hle]

/-- C2 (amended): for every container built from the supported operations
(all of which keep names within the 2048-byte bound, cf.
`c_create_namesBounded` and `c_add_namesBounded`), decoding the bytes
produced by encoding the container (`parse(dump(C))`) yields a container
with identical entries, in the same insertion order, with the same names,
types and values, except for the sticky error fields: the wire form carries
no error slot, so the top-level error and the error field of every nested
container stored inside a value read as no-error after decode (`scrubEs`
resets exactly those fields and keeps everything else). -/
theorem c2_parse_dump_roundtrip (C : CNvList) (h : namesBoundedC C = true) :
    c_parse (c_dump C) = some (CNvList.mk C.flags 0 (scrubEs C.entries))
  ∧ (scrubEs C.entries).map NvEntry.name = C.entries.map NvEntry.name
  ∧ (scrubEs C.entries).map (fun e => e.val.typeOf)
      = C.entries.map (fun e => e.val.typeOf) := by
  cases C with
  | mk fl err es =>
      exact ⟨c_parse_c_dump fl err es h, scrubEs_map_name es, scrubEs_map_typeOf es⟩

/-- Containers built with the supported operations on which the original
round-trip claim fails: `c2CexChild` is `create(None)` followed by two
`add_null("a")` calls — the second trips `DuplicateName`, leaving the child
with a nonzero sticky error — and `c2CexParent` embeds that child via
`add_nvlist`. -/
def c2CexChild : CNvList := c_add_null (c_add_null (c_create .None) [97]) [97]

/-- Parent container embedding the errored child (see `c2CexChild`). -/
def c2CexParent : CNvList := c_add_nvlist (c_create .None) [98] c2CexChild

/-- C2 counterexample: the child stored inside `c2CexParent` carries the
sticky `DuplicateName` error, which the wire form cannot represent, so
`parse(dump(C))` does not reproduce the entries identically — the original
claim, which excepts only the top-level sticky error field, fails at this
container built from supported operations. -/
theorem c2_nested_error_counterexample :
    c2CexChild.err = EEXIST
  ∧ ¬ (c_parse (c_dump c2CexParent)
        = some (.mk c2CexParent.flags 0 c2CexParent.entries)) := by
  refine ⟨rfl, fun hc => ?_⟩
  rw [show (CNvList.mk c2CexParent.flags 0 c2CexParent.entries)
      = CNvList.mk .None 0 [.mk [98] (.vlist (.mk .None 17 [.mk [97] .vnull]))]
      from rfl] at hc
  rw [show c_parse (c_dump c2CexParent)
      = some (CNvList.mk .None 0 [.mk [98] (.vlist (.mk .None 0 [.mk [97] .vnull]))])
      from rfl] at hc
  simp at hc

/-- Concrete container exercising every supported value kind for the round
trip witness, with a nonzero top-level sticky error and a nested child whose
sticky error is also nonzero (reset by the decode). -/
def c2List : CNvList :=
  .mk .All 5
    [ .mk [120] (.vnum 42), .mk [121] (.vstr [104, 105]),
      .mk [122] (.vlist (.mk .None 0 [.mk [97] (.vbool true)])),
      .mk [114] (.vlist (.mk .NoUnique 21 [.mk [99] (.vnum 1)])),
      .mk [119] (.vlistArr [.mk .IgnoreCase 0 [], .mk .None 17 [.mk [98] .vnull]]),
      .mk [118] (.vboolArr [true, false]), .mk [117] (.vstrArr [[1, 2], [3]]),
      .mk [116] (.vbin [9, 8]), .mk [115] (.vnumArr [5, 6, 7]) ]

/-- Witness for C2 at a container holding every supported kind, with errored
nested children that decode as error-free. -/
theorem c2_parse_dump_roundtrip_witness :
    namesBoundedC c2List = true
  ∧ (c_parse (c_dump c2List) = some (CNvList.mk c2List.flags 0 (scrubEs c2List.entries))
      ∧ (scrubEs c2List.entries).map NvEntry.name = c2List.entries.map NvEntry.name
      ∧ (scrubEs c2List.entries).map (fun e => e.val.typeOf)
          = c2List.entries.map (fun e => e.val.typeOf)) :=
  ⟨rfl, c2_parse_dump_roundtrip c2List rfl⟩

/-- C1 counterexample: the claim promises `exists` returns `false` on the
sentinel for every name, but for a name containing an interior NUL byte the
`CString::new(name).expect(..)` conversion — performed before the sentinel
check — panics (modelled as `none`), so `exists` does not return `false`. -/
theorem c1_sentinel_nul_counterexample :
    ¬ (NvList.exists NvList.defaultNv [0] = some false) := by
  decide

/-- C1 (amended): for names free of interior NUL bytes, the invalid sentinel
container degrades gracefully — `error()` is the fixed out-of-memory code,
every typed getter returns the not-found outcome, `exists`/`exists_type`
return `false`, `is_empty` is `true`, and the listed mutators are no-ops
returning the sentinel unchanged (the `add_*` mutators are no-ops even for
NUL-carrying names, since their name conversion sits inside the validity
check; `free`/`free_type` convert first and so need the NUL-free name). -/
theorem c1_sentinel_graceful (name value : NvName) (b : Bool) (n : Nat)
    (bs : List Bool) (ns : List Nat) (ss : List NvName) (ls : List NvList)
    (ty : NvType) (h : hasNul name = false) :
    NvList.error NvList.defaultNv = ENOMEM
  ∧ NvList.get_bool NvList.defaultNv name = some none
  ∧ NvList.get_number NvList.defaultNv name = some none
  ∧ NvList.get_string NvList.defaultNv name = some none
  ∧ NvList.get_nvlist NvList.defaultNv name = some none
  ∧ NvList.get_bool_slice NvList.defaultNv name = some none
  ∧ NvList.get_number_slice NvList.defaultNv name = some none
  ∧ NvList.get_string_vec NvList.defaultNv name = some none
  ∧ NvList.get_nvlist_vec NvList.defaultNv name = some none
  ∧ NvList.exists NvList.defaultNv name = some false
  ∧ NvList.exists_type NvList.defaultNv name ty = some false
  ∧ NvList.is_empty NvList.defaultNv = true
  ∧ NvList.add_null NvList.defaultNv name = some NvList.defaultNv
  ∧ NvList.add_bool NvList.defaultNv name b = some NvList.defaultNv
  ∧ NvList.add_number NvList.defaultNv name n = some NvList.defaultNv
  ∧ NvList.add_string NvList.defaultNv name value = some NvList.defaultNv
  ∧ NvList.add_bool_slice NvList.defaultNv name bs = some NvList.defaultNv
  ∧ NvList.add_number_slice NvList.defaultNv name ns = some NvList.defaultNv
  ∧ NvList.add_string_slice NvList.defaultNv name ss = some NvList.defaultNv
  ∧ NvList.add_nvlist_slice NvList.defaultNv name ls = some NvList.defaultNv
  ∧ NvList.free NvList.defaultNv name = some NvList.defaultNv
  ∧ NvList.free_type NvList.defaultNv name ty = some NvList.defaultNv := by
  simp [NvList.defaultNv, NvList.error, NvList.get_bool, NvList.get_number,
    NvList.get_string, NvList.get_nvlist, NvList.get_bool_slice,
    NvList.get_number_slice, NvList.get_string_vec, NvList.get_nvlist_vec,
    NvList.exists, NvList.exists_type, NvList.is_empty, NvList.add_null,
    NvList.add_bool, NvList.add_number, NvList.add_string,
    NvList.add_bool_slice, NvList.add_number_slice, NvList.add_string_slice,
    NvList.add_nvlist_slice, NvList.free, NvList.free_type, h]

/-- Witness for C1 at the concrete name `"x"`. -/
theorem c1_sentinel_graceful_witness :
    hasNul [120] = false ∧ NvList.error NvList.defaultNv = ENOMEM := by
  refine ⟨by decide, ?_⟩
  exact (c1_sentinel_graceful [120] [121] true 1 [] [] [] [] .Null (by decide)).1

/-- C4 counterexample: on a valid container, `add_null` with the name
`"a\0b"` (interior NUL) does not terminate normally — the
`CString::new(name).expect("Could not decode string")` call panics, modelled
here as `none` — so not every operation on every input is non-fatal. -/
theorem c4_panic_counterexample :
    NvList.add_null ⟨some (c_create NvFlag.None)⟩ [97, 0, 98] = none := rfl

/-- Whether a generic addable value is free of interior-NUL strings, so that
its dispatch can not hit the panicking CString conversion of a value. -/
def NvAddable.nulFree : NvAddable → Bool
  | .ab _ => true
  | .an _ => true
  | .astr s => !hasNul s
  | .alist _ => true
  | .aopt (some v) => v.nulFree
  | .aopt none => true

/-- The generic dispatcher never panics when the name and any string value
are free of interior NULs. -/
theorem nv_add_total : ∀ (v : NvAddable) (l : NvList) (name : NvName),
    hasNul name = false → v.nulFree = true → (v.nv_add l name).isSome = true
  | .ab b, l, name, h, _ => by
      cases hl : l.list <;> simp [NvAddable.nv_add, NvList.add_bool, hl, h]
  | .an n, l, name, h, _ => by
      cases hl : l.list <;> simp [NvAddable.nv_add, NvList.add_number, hl, h]
  | .astr s, l, name, h, hf => by
      simp only [NvAddable.nulFree, Bool.not_eq_true'] at hf
      cases hl : l.list <;> simp [NvAddable.nv_add, NvList.add_string, hl, h, hf]
  | .alist v, l, name, h, _ => by
      cases hl : l.list <;> cases hv : v.list <;>
        simp [NvAddable.nv_add, NvList.add_nvlist, hl, hv, h]
  | .aopt (some v), l, name, h, hf => by
      simp only [NvAddable.nulFree] at hf
      simpa [NvAddable.nv_add] using nv_add_total v l name h hf
  | .aopt none, l, name, h, _ => by
      cases hl : l.list <;> simp [NvAddable.nv_add, NvList.add_null, hl, h]

/-- C4 (amended): provided names and string values contain no interior NUL
byte (otherwise the `CString` conversion panics), every container operation
other than `add_string_slice` and `get_string` — on valid containers and the
sentinel alike — terminates normally with a value, and every failure is a
returned or sticky error code.  The two exceptions are genuinely fatal in the
program: `add_string_slice` hands dangling pointers to the C side (documented
"currently broken"), and `get_string` transfers ownership of the container's
own buffer into the returned `String`, making a double free inevitable once
both are dropped (the C5 bug). -/
theorem c4_no_fatal (l : NvList) (value2 : NvList) (name value : NvName)
    (b : Bool) (n : Nat) (bs : List Bool) (ns : List Nat)
    (ls : List NvList) (ty : NvType) (g : NvAddable)
    (h1 : hasNul name = false) (h2 : hasNul value = false)
    (h4 : g.nulFree = true) :
    (NvList.add_null l name).isSome = true
  ∧ (NvList.add_bool l name b).isSome = true
  ∧ (NvList.add_number l name n).isSome = true
  ∧ (NvList.add_string l name value).isSome = true
  ∧ (NvList.add_nvlist l name value2).isSome = true
  ∧ (NvList.add_binary l name value).isSome = true
  ∧ (NvList.add_bool_slice l name bs).isSome = true
  ∧ (NvList.add_number_slice l name ns).isSome = true
  ∧ (NvList.add_nvlist_slice l name ls).isSome = true
  ∧ (NvList.add l name g).isSome = true
  ∧ (NvList.exists l name).isSome = true
  ∧ (NvList.exists_type l name ty).isSome = true
  ∧ (NvList.get_bool l name).isSome = true
  ∧ (NvList.get_number l name).isSome = true
  ∧ (NvList.get_nvlist l name).isSome = true
  ∧ (NvList.get_bool_slice l name).isSome = true
  ∧ (NvList.get_number_slice l name).isSome = true
  ∧ (NvList.get_string_vec l name).isSome = true
  ∧ (NvList.get_nvlist_vec l name).isSome = true
  ∧ (NvList.free l name).isSome = true
  ∧ (NvList.free_type l name ty).isSome = true := by
  refine ⟨?_, ?_, ?_, ?_, ?_, ?_, ?_, ?_, ?_,
    nv_add_total g l name h1 h4, ?_, ?_, ?_, ?_, ?_, ?_, ?_, ?_, ?_, ?_, ?_⟩ <;>
    cases hl : l.list
  all_goals
    first
    | (cases hv : value2.list <;>
        simp [NvList.add_nvlist, hl, hv, h1])
    | (simp [NvList.add_null, NvList.add_bool, NvList.add_number,
        NvList.add_string, NvList.add_binary, NvList.add_bool_slice,
        NvList.add_number_slice,
        NvList.add_nvlist_slice, NvList.exists, NvList.exists_type,
        NvList.get_bool, NvList.get_number,
        NvList.get_nvlist, NvList.get_bool_slice, NvList.get_number_slice,
        NvList.get_string_vec, NvList.get_nvlist_vec, NvList.free,
        NvList.free_type, hl, h1, h2]
       <;> try (split <;> simp))

/-- Witness for C4 at a valid container and concrete NUL-free arguments. -/
theorem c4_no_fatal_witness :
    hasNul [120] = false ∧
      (NvList.add_null ⟨some (c_create NvFlag.None)⟩ [120]).isSome = true := by
  refine ⟨by decide, ?_⟩
  exact (c4_no_fatal ⟨some (c_create NvFlag.None)⟩ NvList.defaultNv [120] [121]
    true 1 [] [] [] .Null (.an 7) (by decide) (by decide) (by decide)).1

/-- On an error-free container, inserting a fresh name within the length
bound appends exactly one entry. -/
theorem c_add_success (cl : CNvList) (name : NvName) (v : NvValue)
    (h2 : cl.err = 0) (h3 : c_exists cl name = false)
    (hlen : name.length ≤ NV_NAME_MAX) :
    c_add cl name v = .mk cl.flags 0 (cl.entries ++ [.mk name v]) := by
  simp [c_add, h2, h3, Nat.not_lt.mpr hlen]

/-- On an error-free container, inserting a name beyond the length bound
records `NameTooLong` and leaves the entries unchanged. -/
theorem c_add_toolong (cl : CNvList) (name : NvName) (v : NvValue)
    (h2 : cl.err = 0) (hlen : name.length > NV_NAME_MAX) :
    c_add cl name v = .mk cl.flags ENAMETOOLONG cl.entries := by
  simp [c_add, h2, hlen]

/-- C3 (amended): every insertion operation except `add_string_slice`
validates the 2048-byte name bound — on an error-free valid container, a
fresh NUL-free name of exactly 2048 bytes is inserted (one entry appended),
while a name of 2049 bytes sets the sticky error to the `NameTooLong` code,
inserts nothing, and leaves the entry sequence (hence the entry count)
unchanged.  `add_string_slice` is excluded: its implementation is documented
"currently broken" (dangling pointers to dropped `CString` temporaries), so
no insertion with any name reliably completes on a valid container. -/
theorem c3_name_length_boundary (cl ccl : CNvList) (nA nB : NvName)
    (b : Bool) (n : Nat) (s : NvName) (bs : List Bool) (ns : List Nat)
    (ls : List NvList)
    (h2 : cl.err = 0)
    (hA1 : hasNul nA = false) (hA2 : c_exists cl nA = false)
    (hA3 : nA.length = 2048)
    (hB1 : hasNul nB = false) (hB3 : nB.length = 2049)
    (hs : hasNul s = false) :
    (NvList.add_null ⟨some cl⟩ nA
        = some ⟨some (.mk cl.flags 0 (cl.entries ++ [.mk nA .vnull]))⟩
      ∧ NvList.add_null ⟨some cl⟩ nB
        = some ⟨some (.mk cl.flags ENAMETOOLONG cl.entries)⟩)
  ∧ (NvList.add_bool ⟨some cl⟩ nA b
        = some ⟨some (.mk cl.flags 0 (cl.entries ++ [.mk nA (.vbool b)]))⟩
      ∧ NvList.add_bool ⟨some cl⟩ nB b
        = some ⟨some (.mk cl.flags ENAMETOOLONG cl.entries)⟩)
  ∧ (NvList.add_number ⟨some cl⟩ nA n
        = some ⟨some (.mk cl.flags 0 (cl.entries ++ [.mk nA (.vnum n)]))⟩
      ∧ NvList.add_number ⟨some cl⟩ nB n
        = some ⟨some (.mk cl.flags ENAMETOOLONG cl.entries)⟩)
  ∧ (NvList.add_string ⟨some cl⟩ nA s
        = some ⟨some (.mk cl.flags 0 (cl.entries ++ [.mk nA (.vstr s)]))⟩
      ∧ NvList.add_string ⟨some cl⟩ nB s
        = some ⟨some (.mk cl.flags ENAMETOOLONG cl.entries)⟩)
  ∧ (NvList.add_nvlist ⟨some cl⟩ nA ⟨some ccl⟩
        = some ⟨some (.mk cl.flags 0 (cl.entries ++ [.mk nA (.vlist ccl)]))⟩
      ∧ NvList.add_nvlist ⟨some cl⟩ nB ⟨some ccl⟩
        = some ⟨some (.mk cl.flags ENAMETOOLONG cl.entries)⟩)
  ∧ (NvList.add_binary ⟨some cl⟩ nA s
        = some ⟨some (.mk cl.flags 0 (cl.entries ++ [.mk nA (.vbin s)]))⟩
      ∧ NvList.add_binary ⟨some cl⟩ nB s
        = some ⟨some (.mk cl.flags ENAMETOOLONG cl.entries)⟩)
  ∧ (NvList.add_bool_slice ⟨some cl⟩ nA bs
        = some ⟨some (.mk cl.flags 0 (cl.entries ++ [.mk nA (.vboolArr bs)]))⟩
      ∧ NvList.add_bool_slice ⟨some cl⟩ nB bs
        = some ⟨some (.mk cl.flags ENAMETOOLONG cl.entries)⟩)
  ∧ (NvList.add_number_slice ⟨some cl⟩ nA ns
        = some ⟨some (.mk cl.flags 0 (cl.entries ++ [.mk nA (.vnumArr ns)]))⟩
      ∧ NvList.add_number_slice ⟨some cl⟩ nB ns
        = some ⟨some (.mk cl.flags ENAMETOOLONG cl.entries)⟩)
  ∧ (NvList.add_nvlist_slice ⟨some cl⟩ nA ls
        = some ⟨some (.mk cl.flags 0
            (cl.entries ++ [.mk nA (.vlistArr (ls.filterMap NvList.list))]))⟩
      ∧ NvList.add_nvlist_slice ⟨some cl⟩ nB ls
        = some ⟨some (.mk cl.flags ENAMETOOLONG cl.entries)⟩) := by
  have hlA : nA.length ≤ NV_NAME_MAX := by simp [NV_NAME_MAX, hA3]
  have hlB : nB.length > NV_NAME_MAX := by simp [NV_NAME_MAX, hB3]
  refine ⟨⟨?_, ?_⟩, ⟨?_, ?_⟩, ⟨?_, ?_⟩, ⟨?_, ?_⟩, ⟨?_, ?_⟩, ⟨?_, ?_⟩,
    ⟨?_, ?_⟩, ⟨?_, ?_⟩, ⟨?_, ?_⟩⟩ <;>
    simp [NvList.add_null, NvList.add_bool, NvList.add_number,
      NvList.add_string, NvList.add_nvlist, NvList.add_binary,
      NvList.add_bool_slice, NvList.add_number_slice,
      NvList.add_nvlist_slice, c_add_null, c_add_bool, c_add_number,
      c_add_string, c_add_nvlist, c_add_binary, c_add_bool_array,
      c_add_number_array, c_add_nvlist_array,
      hA1, hB1, hs,
      c_add_success cl nA _ h2 hA2 hlA, c_add_toolong cl nB _ h2 hlB]

/-- A replicated non-NUL byte never contains a NUL. -/
theorem hasNul_replicate (n c : Nat) (h : (0 == c) = false) :
    hasNul (List.replicate n c) = false := by
  induction n with
  | zero => rfl
  | succ k ih => simp_all [hasNul, List.replicate_succ]

/-- Witness for C3: on an empty container, the 2048-byte name `"aa...a"` is
inserted and the 2049-byte one trips `NameTooLong`. -/
theorem c3_name_length_boundary_witness :
    (List.replicate 2048 97).length = 2048 ∧
      (List.replicate 2049 97).length = 2049 ∧
      NvList.add_number ⟨some (c_create .None)⟩ (List.replicate 2048 97) 7
        = some ⟨some (.mk NvFlag.None 0 [.mk (List.replicate 2048 97) (.vnum 7)])⟩ ∧
      NvList.add_number ⟨some (c_create .None)⟩ (List.replicate 2049 97) 7
        = some ⟨some (.mk NvFlag.None ENAMETOOLONG [])⟩ := by
  have h := c3_name_length_boundary (c_create .None) (c_create .None)
    (List.replicate 2048 97) (List.replicate 2049 97) true 7 [104] [] [] []
    rfl (hasNul_replicate 2048 97 rfl) rfl (by rw [List.length_replicate])
    (hasNul_replicate 2049 97 rfl) (by rw [List.length_replicate]) (by decide)
  exact ⟨by rw [List.length_replicate], by rw [List.length_replicate],
    h.2.2.1.1, h.2.2.1.2⟩

/-- C3 counterexample: `add_string_slice` does not validate-and-insert as the
claim states for every insertion operation — on a valid container it has no
defined result at all (the source hands `nvlist_add_string_array` pointers of
`CString` temporaries already dropped in the map closure; the crate documents
the operation "currently broken" with a `should_panic` doc-test), so even a
fresh NUL-free name of exactly 2048 bytes yields the abnormal outcome
instead of a successful insertion. -/
theorem c3_string_slice_counterexample :
    NvList.add_string_slice ⟨some (c_create NvFlag.None)⟩
      (List.replicate 2048 97) [[104, 105]] = none := by
  have h := hasNul_replicate 2048 97 rfl
  have h2 : ([[104, 105]] : List NvName).any hasNul = false := by decide
  show (if hasNul (List.replicate 2048 97) = true then none
      else if ([[104, 105]] : List NvName).any hasNul = true then none
      else none) = (none : Option NvList)
  rw [h, h2]
  simp

/-- Name comparison is reflexive under either case policy. -/
theorem nameEq_refl (fl : NvFlag) (n : NvName) : nameEq fl n n = true := by
  simp [nameEq]

/-- A successful typed lookup implies the typed existence check holds. -/
theorem c_find_exists_type (cl : CNvList) (name : NvName) (ty : NvType)
    (v : NvValue) (h : c_find cl name ty = some v) :
    c_exists_type cl name ty = true := by
  simp only [c_find, Option.map_eq_some'] at h
  obtain ⟨e, he, hv⟩ := h
  simp only [c_exists_type, List.any_eq_true]
  refine ⟨e, List.mem_of_find?_eq_some he, ?_⟩
  simpa using List.find?_some he

/-- Looking up a name that matched nothing before the freshly appended entry
finds exactly that entry. -/
theorem c_find_append_fresh (fl : NvFlag) (err : Int) (es : List NvEntry)
    (name : NvName) (v : NvValue) (ty : NvType)
    (h : es.any (fun e => nameEq fl e.name name) = false)
    (hty : (v.typeOf == ty) = true) :
    c_find (.mk fl err (es ++ [.mk name v])) name ty = some v := by
  have hp : (nameEq fl (NvEntry.mk name v).name name &&
      ((NvEntry.mk name v).val.typeOf == ty)) = true := by
    simp [NvEntry.name, NvEntry.val, nameEq_refl, hty]
  have h0 : es.find? (fun e => nameEq fl e.name name && (e.val.typeOf == ty)) = none := by
    rw [List.find?_eq_none]
    intro x hx
    have := (List.any_eq_false ).mp h x hx
    simp_all
  simp only [c_find, CNvList.flags, CNvList.entries, List.find?_append, h0,
    List.find?_cons_of_pos _ hp, Option.or]
  simp [NvEntry.val, NvEntry.name, nameEq_refl]
  simpa using hty
/-- C6: inserting the never-validly-constructed sentinel as a nested value
via `add_nvlist` on a valid parent does not embed the sentinel — a freshly
constructed empty container carrying the parent's flags is stored instead,
so the child entry of a valid container is always a valid container. -/
theorem c6_invalid_child_substitution (cl : CNvList) (name : NvName)
    (h1 : hasNul name = false) (h2 : cl.err = 0)
    (h3 : c_exists cl name = false) (h4 : name.length ≤ NV_NAME_MAX) :
    NvList.add_nvlist ⟨some cl⟩ name NvList.defaultNv
      = some ⟨some (.mk cl.flags 0
          (cl.entries ++ [.mk name (.vlist (c_create cl.flags))]))⟩ := by
  simp [NvList.add_nvlist, NvList.defaultNv, NvList.flags, h1, c_add_nvlist,
    c_add_success cl name _ h2 h3 h4]

/-- Witness for C6 on a one-entry parent created with the `All` flags. -/
theorem c6_invalid_child_substitution_witness :
    NvList.add_nvlist ⟨some (.mk .All 0 [.mk [97] .vnull])⟩ [98] NvList.defaultNv
      = some ⟨some (.mk NvFlag.All 0
          [.mk [97] .vnull, .mk [98] (.vlist (c_create NvFlag.All))])⟩ := by
  have h := c6_invalid_child_substitution (.mk .All 0 [.mk [97] .vnull]) [98]
    (by decide) rfl (by decide) (by decide)
  simpa [CNvList.flags, CNvList.entries] using h

/-- C7: `get_nvlist` on a valid container, when the first name-and-type
match is the nested container `child`, returns a fresh deep clone of that
child — a container equal to the stored child — and mutating the returned
clone leaves the parent's stored child unchanged. -/
theorem c7_get_nvlist_clone (cl child : CNvList) (name : NvName)
    (h1 : hasNul name = false)
    (h2 : c_find cl name .NvList = some (.vlist child)) :
    NvList.get_nvlist ⟨some cl⟩ name = some (some ⟨some child⟩)
  ∧ (∀ (n2 : NvName) (v2 : Nat) (child' : NvList),
      NvList.add_number ⟨some child⟩ n2 v2 = some child' →
      c_get_nvlist cl name = some child) := by
  have hex := c_find_exists_type cl name .NvList _ h2
  have hget : c_get_nvlist cl name = some child := by
    simp [c_get_nvlist, h2]
  refine ⟨?_, fun n2 v2 child' _ => hget⟩
  simp [NvList.get_nvlist, h1, hex, hget, c_clone]

/-- Witness for C7 on a parent that stores a `Bool` and a nested list under
the same name (the nested child is found and returned, not the bool). -/
theorem c7_get_nvlist_clone_witness :
    NvList.get_nvlist
        ⟨some (.mk .All 0 [.mk [120] (.vbool true),
          .mk [120] (.vlist (.mk .None 0 [.mk [97] (.vnum 42)]))])⟩ [120]
      = some (some ⟨some (.mk .None 0 [.mk [97] (.vnum 42)])⟩) :=
  (c7_get_nvlist_clone
    (.mk .All 0 [.mk [120] (.vbool true),
      .mk [120] (.vlist (.mk .None 0 [.mk [97] (.vnum 42)]))])
    (.mk .None 0 [.mk [97] (.vnum 42)]) [120] (by decide) rfl).1

/-- C8 counterexample: in a container whose first entry under `"x"` is a
`Bool` and whose second is a nested list, `get_nvlist("x")` returns the
nested list — the typed getters skip mismatched tags, exactly as the
crate's own `get_nvlist` doc-test asserts — so the claim that a getter
returns not-found whenever the first matching entry has a different tag is
false. -/
theorem c8_skip_mismatch_counterexample :
    ¬ (NvList.get_nvlist
        ⟨some (.mk .All 0 [.mk [120] (.vbool true),
          .mk [120] (.vlist (.mk .None 0 []))])⟩ [120] = some none) := by
  intro hc
  have h : NvList.get_nvlist
      ⟨some (.mk .All 0 [.mk [120] (.vbool true),
        .mk [120] (.vlist (.mk .None 0 []))])⟩ [120]
      = some (some ⟨some (.mk .None 0 [])⟩) := rfl
  rw [h] at hc
  exact Option.noConfusion (Option.some.inj hc)

/-- C8 (amended): a typed getter returns the first entry matching both the
name and the getter's tag; when no stored entry under the name carries that
tag — in particular when the container holds only `add_string("x", "hi")`
and `get_number("x")` is asked — the getter returns the not-found outcome,
never an error, crash, or value read from a mismatched payload. -/
theorem c8_type_safe_retrieval (cl : CNvList) (name s : NvName) (fl : NvFlag)
    (h1 : hasNul name = false) (hs : hasNul s = false)
    (hlen : name.length ≤ NV_NAME_MAX)
    (h2 : ∀ e ∈ cl.entries, nameEq cl.flags e.name name = true →
      (e.val.typeOf == NvType.Number) = false) :
    NvList.get_number ⟨some cl⟩ name = some none
  ∧ (∀ n, c_find cl name .Number = some (.vnum n) →
      NvList.get_number ⟨some cl⟩ name = some (some n))
  ∧ NvList.add_string ⟨some (c_create fl)⟩ name s
      = some ⟨some (.mk fl 0 [.mk name (.vstr s)])⟩
  ∧ NvList.get_number ⟨some (.mk fl 0 [.mk name (.vstr s)])⟩ name
      = some none := by
  have hex : c_exists_type cl name .Number = false := by
    simp only [c_exists_type, List.any_eq_false]
    intro e he
    cases hne : nameEq cl.flags e.name name with
    | false => simp [hne]
    | true => simp [hne, h2 e he hne]
  refine ⟨?_, ?_, ?_, ?_⟩
  · simp [NvList.get_number, h1, hex]
  · intro n hf
    have := c_find_exists_type cl name .Number _ hf
    simp [NvList.get_number, h1, this, c_get_number, hf]
  · have hadd := c_add_success (.mk fl 0 []) name (.vstr s) rfl rfl hlen
    simp only [CNvList.flags, CNvList.entries, List.nil_append] at hadd
    simp [NvList.add_string, h1, hs, c_add_string, c_create, hadd]
  · have hst : c_exists_type (.mk fl 0 [.mk name (.vstr s)]) name .Number = false := by
      simp only [c_exists_type, CNvList.entries, CNvList.flags, List.any_eq_false]
      intro x hx
      simp only [List.mem_singleton] at hx
      subst hx
      simp [NvEntry.val, NvValue.typeOf]
    simp [NvList.get_number, h1, hst]

/-- Witness for C8 at the concrete scenario of the claim: a container that
holds only the string `"hi"` under `"x"` answers `get_number("x")` with
not-found. -/
theorem c8_type_safe_retrieval_witness :
    NvList.add_string ⟨some (c_create NvFlag.None)⟩ [120] [104, 105]
      = some ⟨some (.mk NvFlag.None 0 [.mk [120] (.vstr [104, 105])])⟩
  ∧ NvList.get_number ⟨some (.mk NvFlag.None 0 [.mk [120] (.vstr [104, 105])])⟩ [120]
      = some none :=
  ⟨(c8_type_safe_retrieval (c_create .None) [120] [104, 105] NvFlag.None
      (by decide) (by decide) (by decide) (by intro e he; cases he)).2.2.1,
   (c8_type_safe_retrieval (c_create .None) [120] [104, 105] NvFlag.None
      (by decide) (by decide) (by decide) (by intro e he; cases he)).2.2.2⟩

/-- C9: the single polymorphic `add` dispatcher is equivalent to the typed
insertions — for every container and name, `add` on a `u64`, `bool`, string
or `NvList` value produces the same resulting state as the corresponding
typed operation, `add` of an empty optional the same state as `add_null`,
and `add` of `Some v` the same state as `add` of `v`. -/
theorem c9_add_dispatch_equiv (l : NvList) (name : NvName) :
    (∀ b : Bool, NvList.add l name (.ab b) = NvList.add_bool l name b)
  ∧ (∀ n : Nat, NvList.add l name (.an n) = NvList.add_number l name n)
  ∧ (∀ s : NvName, NvList.add l name (.astr s) = NvList.add_string l name s)
  ∧ (∀ c : NvList, NvList.add l name (.alist c) = NvList.add_nvlist l name c)
  ∧ NvList.add l name (.aopt none) = NvList.add_null l name
  ∧ (∀ v : NvAddable, NvList.add l name (.aopt (some v)) = NvList.add l name v) :=
  ⟨fun _ => rfl, fun _ => rfl, fun _ => rfl, fun _ => rfl, rfl, fun _ => rfl⟩

/-- Count of valid lists in a slice equals the length of the filtered
pointer vector the insertion builds. -/
theorem filterMap_list_length (ls : List NvList) :
    (ls.filterMap NvList.list).length
      = (ls.filter (fun x => x.list.isSome)).length := by
  induction ls with
  | nil => rfl
  | cons x xs ih => cases hx : x.list <;> simp [List.filterMap_cons, hx, ih]

/-- C10: `add_nvlist_slice` on a valid container silently drops the invalid
(sentinel) lists from the input slice, storing exactly the valid input lists
in their original relative order, and a following `get_nvlist_vec` returns
one clone per valid input list, in order, its length the number of valid
lists in the input. -/
theorem c10_nvlist_slice_filter (cl : CNvList) (name : NvName)
    (ls : List NvList) (h1 : hasNul name = false) (h2 : cl.err = 0)
    (h3 : c_exists cl name = false) (h4 : name.length ≤ NV_NAME_MAX) :
    NvList.add_nvlist_slice ⟨some cl⟩ name ls
      = some ⟨some (.mk cl.flags 0 (cl.entries
          ++ [.mk name (.vlistArr (ls.filterMap NvList.list))]))⟩
  ∧ NvList.get_nvlist_vec
        ⟨some (.mk cl.flags 0 (cl.entries
          ++ [.mk name (.vlistArr (ls.filterMap NvList.list))]))⟩ name
      = some (some ((ls.filterMap NvList.list).map
          (fun c => (⟨some c⟩ : NvList))))
  ∧ ((ls.filterMap NvList.list).map (fun c => (⟨some c⟩ : NvList))).length
      = (ls.filter (fun x => x.list.isSome)).length := by
  have hanyf : cl.entries.any (fun e => nameEq cl.flags e.name name) = false := h3
  have hfind := c_find_append_fresh cl.flags 0 cl.entries name
    (.vlistArr (ls.filterMap NvList.list)) .NvListArray hanyf
    (by simp [NvValue.typeOf])
  have hex := c_find_exists_type _ name .NvListArray _ hfind
  refine ⟨?_, ?_, ?_⟩
  · simp [NvList.add_nvlist_slice, h1, c_add_nvlist_array,
      c_add_success cl name _ h2 h3 h4]
  · simp [NvList.get_nvlist_vec, h1, hex, c_get_nvlist_array, hfind, c_clone]
  · simp [filterMap_list_length]

/-- Witness for C10: a slice holding a sentinel between two valid lists is
stored with the sentinel dropped and read back as the two valid lists in
order. -/
theorem c10_nvlist_slice_filter_witness :
    NvList.add_nvlist_slice ⟨some (c_create .None)⟩ [110]
        [⟨some (.mk .All 0 [])⟩, NvList.defaultNv, ⟨some (c_create .None)⟩]
      = some ⟨some (.mk NvFlag.None 0
          [.mk [110] (.vlistArr [.mk .All 0 [], .mk .None 0 []])])⟩
  ∧ NvList.get_nvlist_vec
        ⟨some (.mk NvFlag.None 0
          [.mk [110] (.vlistArr [.mk .All 0 [], .mk .None 0 []])])⟩ [110]
      = some (some [⟨some (.mk .All 0 [])⟩, ⟨some (.mk .None 0 [])⟩]) := by
  have h := c10_nvlist_slice_filter (c_create .None) [110]
    [⟨some (.mk .All 0 [])⟩, NvList.defaultNv, ⟨some (c_create .None)⟩]
    (by decide) rfl (by decide) (by decide)
  exact ⟨by simpa [NvList.defaultNv, c_create] using h.1,
    by simpa [NvList.defaultNv, c_create] using h.2.1⟩

/-- C5 evaluation at the failing input: after `add_string("Hello","World!")`
on a valid container, `get_string("Hello")` hands back exactly the stored
byte sequence.  At the value level the bytes agree; the Rust implementation,
however, builds the returned `String` with `String::from_raw_parts` directly
over `nvlist_get_string`'s pointer into the container's own storage — an
aliasing transfer of ownership, not the independently owned copy the claim
describes. -/
theorem c5_get_string_eval :
    NvList.add_string ⟨some (c_create .None)⟩ [72, 101, 108, 108, 111]
        [87, 111, 114, 108, 100, 33]
      = some ⟨some (.mk NvFlag.None 0
          [.mk [72, 101, 108, 108, 111] (.vstr [87, 111, 114, 108, 100, 33])])⟩
  ∧ NvList.get_string
        ⟨some (.mk NvFlag.None 0
          [.mk [72, 101, 108, 108, 111] (.vstr [87, 111, 114, 108, 100, 33])])⟩
        [72, 101, 108, 108, 111]
      = some (some [87, 111, 114, 108, 100, 33]) :=
  ⟨rfl, rfl⟩
